import Mathlib

/-!
Shallow embedding of the advice-scoring and diversification logic of
`src/app.py` (class `AnalysisEngine`), with the numeric fields modelled
as rationals and the integer score as `ℤ`.  Python dict lookups with
`.get(key, default)` become `Option.getD`; keys read by direct indexing
(`data["price"]`, `data['sector']`) are required fields.  Presentation
concerns (emoji icons, `%.2f` formatting, string interpolation) are kept
out of the model: the scorer returns structured advice entries whose
`advice` field is the exact advice string the code produces, and the
rationale is kept as structured reasons.
-/

namespace App

/-- A portfolio position as consumed by `AnalysisEngine.generate_advice`
(`{"ticker": ..., "quantity": ..., "avg_price": ...}`). -/
structure Position where
  ticker : String
  quantity : ℚ
  avg_price : ℚ
deriving DecidableEq

/-- One ticker's market snapshot, the dict built by
`PathwayClient.fetch_live_stock_data`.  `price` and `sector` are read by
direct indexing in the engine, so they are required; the remaining keys
are only ever read through `.get` with a default, so they are optional.
Field order follows the source dict: `price`, `change_percent`,
`sector`, `50d_ma`, `200d_ma`, `rsi`, `volume`, `avg_vol`. -/
structure Snapshot where
  price : ℚ
  change_percent : Option ℚ
  sector : String
  ma50 : Option ℚ
  ma200 : Option ℚ
  rsi : Option ℚ
  volume : Option ℚ
  avg_vol : Option ℚ
deriving DecidableEq

/-- The market-data mapping `live_data : ticker → snapshot`; a ticker
absent from the Python dict is `none`. -/
def LiveData : Type := String → Option Snapshot

/-- The textual reasons appended while scoring, as structured tags
(source strings: "it's trading below its 50-Day trendline", "it's in
the overbought zone (RSI > 70)", "it's in the oversold zone (RSI < 30)",
"it's falling on high volume", "it's facing selling pressure today"). -/
inductive Reason where
  | below50DayTrend
  | overbought
  | oversold
  | fallingHighVolume
  | sellingPressure
deriving DecidableEq

/-- The scoring loop body of `generate_advice` (src/app.py lines 79-96):
`score` starts at 0 and `reasons` empty, then three sequential
if-blocks mutate them.  `1.5` is the rational `3/2`. -/
def scoreAndReasons (data : Snapshot) : ℤ × List Reason :=
  let s0 : ℤ × List Reason := (0, [])
  let s1 :=
    if data.price < data.ma50.getD 0 then
      (s0.1 - 2, s0.2 ++ [Reason.below50DayTrend])
    else s0
  let s2 :=
    if data.rsi.getD 100 > 70 then
      (s1.1 - 1, s1.2 ++ [Reason.overbought])
    else if data.rsi.getD 0 < 30 then
      (s1.1 + 1, s1.2 ++ [Reason.oversold])
    else s1
  let s3 :=
    if data.change_percent.getD 0 < -2 ∧ data.volume.getD 0 > data.avg_vol.getD 0 * (3 / 2) then
      (s2.1 - 2, s2.2 ++ [Reason.fallingHighVolume])
    else if data.change_percent.getD 0 < -2 then
      (s2.1 - 1, s2.2 ++ [Reason.sellingPressure])
    else s2
  s3

/-- The final rationale returned with the advice: either the joined
reasons (only when the list is non-empty), the fixed neutral sentence
"the current indicators are neutral.", or the fixed averaging-in
rationale sentence of the first branch. -/
inductive FinalReason where
  | fromIndicators (rs : List Reason)
  | neutralIndicators
  | averagingHealthy
deriving DecidableEq

/-- The risk adjustment at the top of `_get_final_advice`
(src/app.py lines 111-112): two independent `if` statements. -/
def riskAdjust (risk : String) (score : ℤ) : ℤ :=
  let score := if risk = "Conservative" then score - 1 else score
  if risk = "Aggressive" then score + 1 else score

/-- `AnalysisEngine._get_final_advice` (src/app.py lines 108-129),
returning the advice string exactly as in the source and the structured
rationale. -/
def getFinalAdvice (score : ℤ) (pnl : ℚ) (risk : String) (reasons : List Reason)
    (live_stock_data : Snapshot) : String × FinalReason :=
  let reason_str : FinalReason :=
    if reasons.isEmpty then .neutralIndicators else .fromIndicators reasons
  let score := riskAdjust risk score
  let is_healthy_long_term := live_stock_data.price > live_stock_data.ma200.getD 0
  let is_not_overbought := live_stock_data.rsi.getD 100 < 65
  if score ≥ 1 ∧ is_healthy_long_term ∧ is_not_overbought ∧ pnl < 15 then
    ("Consider buying more (Averaging)", .averagingHealthy)
  else if score ≤ -3 then
    ("Strongly consider selling", reason_str)
  else if score ≤ -1 then
    ("Consider reducing position", reason_str)
  else if score ≥ 2 ∧ pnl < 0 then
    ("Consider holding for recovery", reason_str)
  else if score ≥ 2 then
    ("Hold for potential upside", reason_str)
  else
    ("Hold and Monitor", reason_str)

/-- One element of the advice list, keeping the computed fields that the
formatted string of the source exposes. -/
structure AdviceEntry where
  ticker : String
  pnl_percent : ℚ
  advice : String
  reason : FinalReason
deriving DecidableEq

/-- `AnalysisEngine.generate_advice` (src/app.py lines 71-106): iterate
the portfolio, skip tickers absent from `live_data`, compute the P/L
percent `((price - avg_price) / avg_price) * 100`, score, and append one
advice entry. -/
def generate_advice (portfolio : List Position) (live_data : LiveData)
    (risk_profile : String) : List AdviceEntry :=
  match portfolio with
  | [] => []
  | stock :: rest =>
    match live_data stock.ticker with
    | none => generate_advice rest live_data risk_profile
    | some data =>
      let pnl_percent := (data.price - stock.avg_price) / stock.avg_price * 100
      let sr := scoreAndReasons data
      let fa := getFinalAdvice sr.1 pnl_percent risk_profile sr.2 data
      { ticker := stock.ticker, pnl_percent := pnl_percent,
        advice := fa.1, reason := fa.2 } :: generate_advice rest live_data risk_profile

/-- `defaultdict(float)` accumulation `sector_values[sector] += value`,
as an insertion-ordered association list. -/
def addToSector (acc : List (String × ℚ)) (sector : String) (value : ℚ) :
    List (String × ℚ) :=
  match acc with
  | [] => [(sector, value)]
  | (s, v) :: rest =>
    if s = sector then (s, v + value) :: rest
    else (s, v) :: addToSector rest sector value

/-- The aggregation loop of `analyse_diversification` (src/app.py lines
134-140): walk the portfolio, skip tickers without a snapshot, add
`quantity * price` to the position's sector and to the running total. -/
def sectorFold (live_data : LiveData) :
    List Position → List (String × ℚ) × ℚ → List (String × ℚ) × ℚ
  | [], acc => acc
  | stock :: rest, acc =>
    match live_data stock.ticker with
    | none => sectorFold live_data rest acc
    | some data =>
      sectorFold live_data rest
        (addToSector acc.1 data.sector (stock.quantity * data.price),
         acc.2 + stock.quantity * data.price)

/-- The sector totals and the portfolio total value accumulated by
`analyse_diversification` before its verdict logic. -/
def sectorTotals (portfolio : List Position) (live_data : LiveData) :
    List (String × ℚ) × ℚ :=
  sectorFold live_data portfolio ([], 0)

/-- The three possible outcomes of `analyse_diversification`: the
"Could not calculate diversification due to missing data." string, the
concentration warning listing `(sector, percentage)` pairs, or the
well-diversified message. -/
inductive DiversificationVerdict where
  | insufficientData
  | concentrated (sectors : List (String × ℚ))
  | wellDiversified
deriving DecidableEq

/-- `AnalysisEngine.analyse_diversification` (src/app.py lines 131-150):
if the total value is 0 return the insufficient-data verdict; otherwise
list every sector whose percentage `value / total * 100` exceeds 40, and
warn when that list is non-empty. -/
def analyse_diversification (portfolio : List Position) (live_data : LiveData) :
    DiversificationVerdict :=
  let st := sectorTotals portfolio live_data
  if st.2 = 0 then .insufficientData
  else
    let concentratedSectors :=
      (st.1.map (fun p => (p.1, p.2 / st.2 * 100))).filter (fun p => p.2 > 40)
    if concentratedSectors = [] then .wellDiversified
    else .concentrated concentratedSectors

/-- The sectors named by a diversification verdict (the warning lists
them; the other two verdicts name none). -/
def namedSectors : DiversificationVerdict → List String
  | .concentrated l => l.map Prod.fst
  | _ => []

/-! ## Spec-side definitions (transcribed from the specification text,
for comparison with the code-side definitions above) -/

/-- The additive score of spec §4.1 (extended variant), written as a sum
of four independent contributions exactly as the spec lists them. -/
def specScore (price ma50 rsi chg vol avgvol : ℚ) (risk : String) : ℤ :=
  (if price < ma50 then -2 else 0)
    + (if rsi > 70 then -1 else if rsi < 30 then 1 else 0)
    + (if chg < -2 ∧ vol > avgvol * (3 / 2) then -2 else if chg < -2 then -1 else 0)
    + (if risk = "Conservative" then -1
       else if risk = "Aggressive" then 1 else 0)

/-- The final mapping of spec §4.1: six conditions checked in order,
first match wins, written over the already risk-adjusted score. -/
def specFinalMapping (score : ℤ) (pnl price ma200 rsi : ℚ) : String :=
  if score ≥ 1 ∧ price > ma200 ∧ rsi < 65 ∧ pnl < 15 then
    "Consider buying more (Averaging)"
  else if score ≤ -3 then "Strongly consider selling"
  else if score ≤ -1 then "Consider reducing position"
  else if score ≥ 2 ∧ pnl < 0 then "Consider holding for recovery"
  else if score ≥ 2 then "Hold for potential upside"
  else "Hold and Monitor"

/-! ## Helper lemmas -/

/-- The two sequential risk `if`s amount to a single additive risk term
(a string cannot equal both "Conservative" and "Aggressive"). -/
lemma riskAdjust_eq (risk : String) (score : ℤ) :
    riskAdjust risk score
      = score + (if risk = "Conservative" then -1
                 else if risk = "Aggressive" then 1 else 0) := by
  simp only [riskAdjust]
  split_ifs with h1 h2 <;> first
    | omega
    | (rw [h1] at h2; exact absurd h2 (by decide))

/-- The sequentially accumulated score is the sum of the three branch
contributions. -/
lemma scoreAndReasons_fst (data : Snapshot) :
    (scoreAndReasons data).1
      = (if data.price < data.ma50.getD 0 then -2 else 0)
        + (if data.rsi.getD 100 > 70 then -1
           else if data.rsi.getD 0 < 30 then 1 else 0)
        + (if data.change_percent.getD 0 < -2 ∧
              data.volume.getD 0 > data.avg_vol.getD 0 * (3 / 2) then -2
           else if data.change_percent.getD 0 < -2 then -1 else 0) := by
  unfold scoreAndReasons
  split_ifs <;> norm_num

/-! ## Claims -/

/-- C1: for every snapshot with all fields present, the risk-adjusted
score of the scorer equals the spec's sum of additive steps: -2 when the
price is below the 50-day moving average; -1 when RSI > 70, else +1 when
RSI < 30; -2 when change% < -2 and volume > 1.5 × average volume, else
-1 when change% < -2 alone; and -1 for Conservative, +1 for Aggressive,
0 for Moderate (or any other string). -/
theorem score_additive_steps (price chg ma50 ma200 rsi vol avgvol : ℚ)
    (sector risk : String) :
    riskAdjust risk
      (scoreAndReasons
        ⟨price, some chg, sector, some ma50, some ma200, some rsi, some vol, some avgvol⟩).1
      = specScore price ma50 rsi chg vol avgvol risk := by
  rw [riskAdjust_eq, scoreAndReasons_fst]
  simp only [specScore, Option.getD_some]

/-- C2: for every pre-adjustment score, P/L percent, risk profile and
snapshot with the 200-day average and RSI present, the advice string
returned by `_get_final_advice` equals the spec's ordered final mapping
applied to the risk-adjusted score: score ≥ 1 ∧ price > 200-day average
∧ RSI < 65 ∧ P/L < 15 → averaging in; else score ≤ -3 → strongly
consider selling; else score ≤ -1 → reduce; else score ≥ 2 ∧ P/L < 0 →
hold for recovery; else score ≥ 2 → hold for upside; else hold and
monitor. -/
theorem final_advice_mapping (score : ℤ) (pnl : ℚ) (risk : String)
    (reasons : List Reason) (price chg ma50 ma200 rsi vol avgvol : ℚ)
    (sector : String) :
    (getFinalAdvice score pnl risk reasons
        ⟨price, some chg, sector, some ma50, some ma200, some rsi, some vol, some avgvol⟩).1
      = specFinalMapping (riskAdjust risk score) pnl price ma200 rsi := by
  simp only [getFinalAdvice, specFinalMapping, Option.getD_some]
  split_ifs <;> rfl

/-- C3: every advice entry reports as its P/L percent exactly
`(price - avg_price) / avg_price * 100` for its originating position and
that position's snapshot. -/
theorem pnl_percent_exact (portfolio : List Position) (live : LiveData)
    (risk : String) (hap : ∀ s ∈ portfolio, 0 < s.avg_price)
    (e : AdviceEntry) (h : e ∈ generate_advice portfolio live risk) :
    ∃ stock ∈ portfolio, stock.ticker = e.ticker ∧
      ∃ data, live stock.ticker = some data ∧
        e.pnl_percent = (data.price - stock.avg_price) / stock.avg_price * 100 := by
  induction portfolio with
  | nil => simp [generate_advice] at h
  | cons stock rest ih =>
    have hap' : ∀ s ∈ rest, 0 < s.avg_price :=
      fun s hs => hap s (List.mem_cons_of_mem _ hs)
    cases hl : live stock.ticker with
    | none =>
      simp only [generate_advice, hl] at h
      obtain ⟨s, hs, hprops⟩ := ih hap' h
      exact ⟨s, List.mem_cons_of_mem _ hs, hprops⟩
    | some data =>
      simp only [generate_advice, hl] at h
      rcases List.mem_cons.mp h with he | he
      · subst he
        exact ⟨stock, List.mem_cons_self _ _, rfl, data, hl, rfl⟩
      · obtain ⟨s, hs, hprops⟩ := ih hap' he
        exact ⟨s, List.mem_cons_of_mem _ hs, hprops⟩

/-- The concrete inputs used by the closed witness theorems. -/
def wSnap : Snapshot :=
  ⟨120, some 3, "Tech", some 110, some 100, some 50, some 1000, some 900⟩

/-- A one-position portfolio for the witness theorems. -/
def wStock : Position := ⟨"X", 10, 100⟩

/-- Market data resolving only the ticker "X". -/
def wLive : LiveData := fun t => if t = "X" then some wSnap else none

/-- The advice entry produced for `wStock` under `wLive`. -/
def wEntry : AdviceEntry := ⟨"X", 20, "Hold and Monitor", .neutralIndicators⟩

/-- Concrete evaluation of the scorer on the witness portfolio. -/
lemma wAdvice_eval : generate_advice [wStock] wLive "Moderate" = [wEntry] := by
  norm_num [generate_advice, wLive, wStock, wSnap, wEntry, scoreAndReasons,
    getFinalAdvice, riskAdjust]
  decide

/-- Witness for C3 at a concrete portfolio. -/
theorem pnl_percent_exact_witness :
    (∀ s ∈ [wStock], 0 < s.avg_price) ∧
    (∃ stock ∈ [wStock], stock.ticker = wEntry.ticker ∧
      ∃ data, wLive stock.ticker = some data ∧
        wEntry.pnl_percent
          = (data.price - stock.avg_price) / stock.avg_price * 100) :=
  ⟨by decide,
   pnl_percent_exact [wStock] wLive "Moderate" (by decide)
     wEntry (by rw [wAdvice_eval]; exact List.mem_singleton.mpr rfl)⟩

/-- Skipping the positions without a snapshot leaves the advice list
unchanged: the scorer already ignores them. -/
lemma generate_advice_filter (portfolio : List Position) (live : LiveData)
    (risk : String) :
    generate_advice portfolio live risk
      = generate_advice (portfolio.filter fun s => (live s.ticker).isSome)
          live risk := by
  induction portfolio with
  | nil => rfl
  | cons stock rest ih =>
    cases hl : live stock.ticker with
    | none =>
      simp only [generate_advice, hl, List.filter_cons, Option.isSome_none,
        Bool.false_eq_true, if_false]
      exact ih
    | some data =>
      simp only [generate_advice, hl, List.filter_cons, Option.isSome_some, if_true]
      rw [ih]

/-- C6: a position whose ticker has no snapshot is silently skipped —
removing all such positions from the portfolio leaves the advice list
unchanged — and when no position has a snapshot the advice list is
empty. -/
theorem missing_snapshot_skipped (portfolio : List Position) (live : LiveData)
    (risk : String) :
    generate_advice portfolio live risk
        = generate_advice (portfolio.filter fun s => (live s.ticker).isSome)
            live risk
    ∧ ((∀ s ∈ portfolio, live s.ticker = none) →
        generate_advice portfolio live risk = []) := by
  refine ⟨generate_advice_filter portfolio live risk, fun hall => ?_⟩
  rw [generate_advice_filter portfolio live risk]
  have : portfolio.filter (fun s => (live s.ticker).isSome) = [] :=
    List.filter_eq_nil_iff.mpr (fun s hs => by simp [hall s hs])
  rw [this]
  rfl

/-- Witness for C6 at a concrete portfolio with no resolvable ticker. -/
theorem missing_snapshot_skipped_witness :
    (∀ s ∈ [wStock], (fun _ => (none : Option Snapshot)) s.ticker = none) ∧
    generate_advice [wStock] (fun _ => none) "Moderate" = [] :=
  ⟨by decide,
   (missing_snapshot_skipped [wStock] (fun _ => none) "Moderate").2 (by decide)⟩

/-- No combination of branches pushes the pre-adjustment score above +1:
the only positive contribution is the oversold +1. -/
lemma scoreAndReasons_fst_le_one (data : Snapshot) : (scoreAndReasons data).1 ≤ 1 := by
  rw [scoreAndReasons_fst]
  split_ifs <;> norm_num

/-- "Moderate" matches neither risk `if`, so the score is unchanged. -/
lemma riskAdjust_moderate (s : ℤ) : riskAdjust "Moderate" s = s := by
  rw [riskAdjust_eq]
  simp

/-- With a score at most 1 and no Moderate adjustment, the two
`score >= 2` branches of `_get_final_advice` are unreachable. -/
lemma getFinalAdvice_moderate_not_hold (score : ℤ) (pnl : ℚ) (reasons : List Reason)
    (data : Snapshot) (hs : score ≤ 1) :
    (getFinalAdvice score pnl "Moderate" reasons data).1 ≠ "Consider holding for recovery"
    ∧ (getFinalAdvice score pnl "Moderate" reasons data).1 ≠ "Hold for potential upside" := by
  have h2 : ¬(score ≥ 2) := by omega
  simp only [getFinalAdvice, riskAdjust_moderate, h2, false_and, if_false]
  split_ifs <;> refine ⟨by simp, by simp⟩

/-- C9: under the Moderate risk profile the final score never exceeds 1,
so the advice strings "Consider holding for recovery" and "Hold for
potential upside" (both requiring score ≥ 2) are never produced. -/
theorem moderate_never_hold_branches (portfolio : List Position) (live : LiveData)
    (e : AdviceEntry) (h : e ∈ generate_advice portfolio live "Moderate") :
    (∀ data : Snapshot, riskAdjust "Moderate" (scoreAndReasons data).1 ≤ 1)
    ∧ e.advice ≠ "Consider holding for recovery"
    ∧ e.advice ≠ "Hold for potential upside" := by
  refine ⟨fun data => by rw [riskAdjust_moderate]; exact scoreAndReasons_fst_le_one data, ?_⟩
  induction portfolio with
  | nil => simp [generate_advice] at h
  | cons stock rest ih =>
    cases hl : live stock.ticker with
    | none =>
      simp only [generate_advice, hl] at h
      exact ih h
    | some data =>
      simp only [generate_advice, hl] at h
      rcases List.mem_cons.mp h with he | he
      · subst he
        exact getFinalAdvice_moderate_not_hold _ _ _ _ (scoreAndReasons_fst_le_one data)
      · exact ih he

/-- C4: when the total valued portfolio is zero the aggregator returns
the insufficient-data verdict; the `total == 0` test precedes every
division, so no division by zero (and no NaN, and no exception) can
occur. -/
theorem zero_total_insufficient (portfolio : List Position) (live : LiveData)
    (h : (sectorTotals portfolio live).2 = 0) :
    analyse_diversification portfolio live = DiversificationVerdict.insufficientData := by
  simp [analyse_diversification, h]

/-- Witness for C4: a portfolio whose only ticker is unresolved. -/
theorem zero_total_insufficient_witness :
    (sectorTotals [wStock] (fun _ => none)).2 = 0 ∧
    analyse_diversification [wStock] (fun _ => none)
      = DiversificationVerdict.insufficientData :=
  ⟨by decide, zero_total_insufficient [wStock] (fun _ => none) (by decide)⟩

/-- C5: with a positive total, the verdict names a sector exactly when
that sector's share `value / total * 100` strictly exceeds 40. -/
theorem concentration_iff (portfolio : List Position) (live : LiveData)
    (h : 0 < (sectorTotals portfolio live).2) (s : String) :
    s ∈ namedSectors (analyse_diversification portfolio live)
      ↔ ∃ v, (s, v) ∈ (sectorTotals portfolio live).1
          ∧ v / (sectorTotals portfolio live).2 * 100 > 40 := by
  have hne : (sectorTotals portfolio live).2 ≠ 0 := ne_of_gt h
  simp only [analyse_diversification]
  rw [if_neg hne]
  by_cases hc :
      (((sectorTotals portfolio live).1.map
          (fun p => (p.1, p.2 / (sectorTotals portfolio live).2 * 100))).filter
        (fun p => p.2 > 40)) = []
  · rw [if_pos hc]
    simp only [namedSectors, List.not_mem_nil, false_iff]
    rintro ⟨v, hv, hgt⟩
    have hmem : ((s, v / (sectorTotals portfolio live).2 * 100) : String × ℚ)
        ∈ (((sectorTotals portfolio live).1.map
            (fun p => (p.1, p.2 / (sectorTotals portfolio live).2 * 100))).filter
          (fun p => p.2 > 40)) :=
      List.mem_filter.mpr ⟨List.mem_map.mpr ⟨(s, v), hv, rfl⟩, decide_eq_true hgt⟩
    rw [hc] at hmem
    exact List.not_mem_nil _ hmem
  · rw [if_neg hc]
    simp only [namedSectors]
    constructor
    · intro hs
      rcases List.mem_map.mp hs with ⟨x, hxf, hxs⟩
      rcases List.mem_filter.mp hxf with ⟨hxm, hxgt⟩
      rcases List.mem_map.mp hxm with ⟨p, hp, hpx⟩
      refine ⟨p.2, ?_, ?_⟩
      · have hps : p.1 = s := by rw [← hxs, ← hpx]
        rw [← hps]
        simpa using hp
      · have hgt : x.2 > 40 := of_decide_eq_true hxgt
        rw [← hpx] at hgt
        exact hgt
    · rintro ⟨v, hv, hgt⟩
      apply List.mem_map.mpr
      refine ⟨(s, v / (sectorTotals portfolio live).2 * 100), ?_, rfl⟩
      exact List.mem_filter.mpr ⟨List.mem_map.mpr ⟨(s, v), hv, rfl⟩, decide_eq_true hgt⟩

/-- A single position fully in the sector "Tech", for the
diversification witnesses. -/
def dStock : Position := ⟨"A", 10, 1⟩

/-- The snapshot resolving `dStock`: price 60, sector "Tech". -/
def dSnap : Snapshot := ⟨60, some 0, "Tech", some 0, some 0, some 50, some 0, some 0⟩

/-- Market data resolving only the ticker "A". -/
def dLive : LiveData := fun t => if t = "A" then some dSnap else none

/-- Concrete evaluation of the sector aggregation on the witness
portfolio: one sector "Tech" worth 600 of a 600 total. -/
lemma dTotals_eval : sectorTotals [dStock] dLive = ([("Tech", 600)], 600) := by
  norm_num [sectorTotals, sectorFold, addToSector, dStock, dLive, dSnap]

/-- Witness for C5 at a concrete concentrated portfolio. -/
theorem concentration_iff_witness :
    0 < (sectorTotals [dStock] dLive).2 ∧
    ("Tech" ∈ namedSectors (analyse_diversification [dStock] dLive)
      ↔ ∃ v, ("Tech", v) ∈ (sectorTotals [dStock] dLive).1
          ∧ v / (sectorTotals [dStock] dLive).2 * 100 > 40) :=
  ⟨by rw [dTotals_eval]; norm_num,
   concentration_iff [dStock] dLive (by rw [dTotals_eval]; norm_num) "Tech"⟩

/-- Witness for C9 at a concrete portfolio. -/
theorem moderate_never_hold_branches_witness :
    wEntry ∈ generate_advice [wStock] wLive "Moderate" ∧
    ((∀ data : Snapshot, riskAdjust "Moderate" (scoreAndReasons data).1 ≤ 1)
      ∧ wEntry.advice ≠ "Consider holding for recovery"
      ∧ wEntry.advice ≠ "Hold for potential upside") :=
  ⟨by rw [wAdvice_eval]; exact List.mem_singleton.mpr rfl,
   moderate_never_hold_branches [wStock] wLive wEntry
     (by rw [wAdvice_eval]; exact List.mem_singleton.mpr rfl)⟩

/-- A position bought at exactly the current price, so the P/L percent
is 0 and plays no role in the branch taken. -/
def rStock : Position := ⟨"TK", 10, 100⟩

/-- A snapshot whose RSI field is absent and whose other indicators are
all neutral: price above both moving averages, no price drop, volume not
elevated. -/
def rSnapNone : Snapshot :=
  ⟨100, some 0, "Tech", some 90, some 90, none, some 1000, some 1000⟩

/-- The same snapshot with RSI present and equal to the neutral 50. -/
def rSnap50 : Snapshot := { rSnapNone with rsi := some 50 }

/-- Market data resolving "TK" to the RSI-less snapshot. -/
def rLiveNone : LiveData := fun t => if t = "TK" then some rSnapNone else none

/-- Market data resolving "TK" to the RSI-50 snapshot. -/
def rLive50 : LiveData := fun t => if t = "TK" then some rSnap50 else none

/-- C7 counterexample: on a snapshot whose RSI is absent and whose other
indicators are neutral, the scorer fires the overbought branch (the
`.get("rsi", 100)` default makes `rsi > 70` true), scores -1 and advises
reducing the position, whereas the same snapshot with RSI explicitly 50
scores 0 and advises holding — so a missing RSI is not treated as the
neutral 50. -/
theorem rsi_default_counterexample :
    (generate_advice [rStock] rLiveNone "Moderate").map AdviceEntry.advice
        = ["Consider reducing position"]
    ∧ (generate_advice [rStock] rLive50 "Moderate").map AdviceEntry.advice
        = ["Hold and Monitor"]
    ∧ Reason.overbought ∈ (scoreAndReasons rSnapNone).2
    ∧ (scoreAndReasons rSnapNone).1 = -1 := by
  refine ⟨by decide, by decide, by decide, by decide⟩

/-- C7 as amended: a snapshot with the RSI field absent is scored, and
given its final advice, exactly as if the RSI were 100: the overbought
branch (score -1) fires, the oversold branch cannot, and the advice
agrees with the RSI-100 snapshot on every score, P/L, risk profile and
reason list. -/
theorem missing_rsi_as_100 (data : Snapshot) (h : data.rsi = none) :
    scoreAndReasons data = scoreAndReasons { data with rsi := some 100 }
    ∧ Reason.overbought ∈ (scoreAndReasons data).2
    ∧ ∀ (score : ℤ) (pnl : ℚ) (risk : String) (reasons : List Reason),
        getFinalAdvice score pnl risk reasons data
          = getFinalAdvice score pnl risk reasons { data with rsi := some 100 } := by
  obtain ⟨price, chg, sector, ma50, ma200, rsi, vol, avgvol⟩ := data
  simp only at h
  subst h
  refine ⟨by norm_num [scoreAndReasons], ?_, fun score pnl risk reasons => ?_⟩
  · norm_num [scoreAndReasons]
    split_ifs <;> simp
  · norm_num [getFinalAdvice]

/-- Witness for the amended C7 at the concrete RSI-less snapshot. -/
theorem missing_rsi_as_100_witness :
    rSnapNone.rsi = none ∧
    (scoreAndReasons rSnapNone = scoreAndReasons { rSnapNone with rsi := some 100 }
      ∧ Reason.overbought ∈ (scoreAndReasons rSnapNone).2
      ∧ ∀ (score : ℤ) (pnl : ℚ) (risk : String) (reasons : List Reason),
          getFinalAdvice score pnl risk reasons rSnapNone
            = getFinalAdvice score pnl risk reasons { rSnapNone with rsi := some 100 }) :=
  ⟨rfl, missing_rsi_as_100 rSnapNone rfl⟩

/-- C8 counterexample: the risk profile "Growth" is outside
{Conservative, Moderate, Aggressive}, yet the scorer produces a
recommendation for it — no validation error exists anywhere on the
path — and the advice is the same as under Moderate. -/
theorem unknown_risk_scored :
    (generate_advice [rStock] rLive50 "Growth").map AdviceEntry.advice
        = ["Hold and Monitor"]
    ∧ (generate_advice [rStock] rLive50 "Growth").length = 1
    ∧ (generate_advice [rStock] rLive50 "Growth").map AdviceEntry.advice
        = (generate_advice [rStock] rLive50 "Moderate").map AdviceEntry.advice := by
  refine ⟨by decide, by decide, by decide⟩

/-- Any string other than "Conservative" and "Aggressive" matches
neither risk `if`, leaving the score unchanged. -/
lemma riskAdjust_other (risk : String) (h1 : risk ≠ "Conservative")
    (h2 : risk ≠ "Aggressive") (s : ℤ) : riskAdjust risk s = s := by
  rw [riskAdjust_eq, if_neg h1, if_neg h2]
  omega

/-- The final advice does not distinguish an unknown risk profile from
Moderate. -/
lemma getFinalAdvice_unknown_risk (risk : String) (h1 : risk ≠ "Conservative")
    (h2 : risk ≠ "Aggressive") (score : ℤ) (pnl : ℚ) (reasons : List Reason)
    (data : Snapshot) :
    getFinalAdvice score pnl risk reasons data
      = getFinalAdvice score pnl "Moderate" reasons data := by
  simp only [getFinalAdvice, riskAdjust_other risk h1 h2, riskAdjust_moderate]

/-- C8 as amended: every risk-profile string outside {Conservative,
Aggressive} is silently given the Moderate treatment — the scorer
applies no risk adjustment, produces a recommendation, and its whole
output is identical to the Moderate output; no validation error is
raised anywhere. -/
theorem unknown_risk_treated_as_moderate (risk : String)
    (h1 : risk ≠ "Conservative") (h2 : risk ≠ "Aggressive")
    (portfolio : List Position) (live : LiveData) :
    generate_advice portfolio live risk
      = generate_advice portfolio live "Moderate" := by
  induction portfolio with
  | nil => rfl
  | cons stock rest ih =>
    cases hl : live stock.ticker with
    | none =>
      simp only [generate_advice, hl]
      exact ih
    | some data =>
      simp only [generate_advice, hl]
      rw [ih, getFinalAdvice_unknown_risk risk h1 h2]

/-- Witness for the amended C8 with the concrete unknown profile
"Growth". -/
theorem unknown_risk_treated_as_moderate_witness :
    ("Growth" : String) ≠ "Conservative" ∧ ("Growth" : String) ≠ "Aggressive" ∧
    generate_advice [rStock] rLive50 "Growth"
      = generate_advice [rStock] rLive50 "Moderate" :=
  ⟨by decide, by decide,
   unknown_risk_treated_as_moderate "Growth" (by decide) (by decide) [rStock] rLive50⟩

/-- Adding a value to a sector bucket adds it to the sum of all bucket
values. -/
lemma addToSector_sum (acc : List (String × ℚ)) (s : String) (v : ℚ) :
    ((addToSector acc s v).map Prod.snd).sum = (acc.map Prod.snd).sum + v := by
  induction acc with
  | nil => simp [addToSector]
  | cons p rest ih =>
    obtain ⟨ps, pv⟩ := p
    by_cases h : ps = s
    · simp [addToSector, h]
      ring
    · simp [addToSector, h, ih]
      ring

/-- Adding a non-negative value keeps every bucket value non-negative. -/
lemma addToSector_nonneg (acc : List (String × ℚ)) (s : String) (v : ℚ)
    (ha : ∀ x ∈ acc, 0 ≤ x.2) (hv : 0 ≤ v) :
    ∀ x ∈ addToSector acc s v, 0 ≤ x.2 := by
  induction acc with
  | nil =>
    intro x hx
    simp [addToSector] at hx
    simp [hx, hv]
  | cons p rest ih =>
    obtain ⟨ps, pv⟩ := p
    intro x hx
    by_cases h : ps = s
    · simp [addToSector, h] at hx
      rcases hx with hx | hx
      · have h0 : (0 : ℚ) ≤ pv := ha (ps, pv) (List.mem_cons_self _ _)
        simp [hx]
        positivity
      · exact ha x (List.mem_cons_of_mem _ hx)
    · simp [addToSector, h] at hx
      rcases hx with hx | hx
      · exact hx ▸ ha (ps, pv) (List.mem_cons_self _ _)
      · exact ih (fun y hy => ha y (List.mem_cons_of_mem _ hy)) x hx

/-- Loop invariant of the aggregation: the sector values sum to the
running total, and with non-negative quantities and prices every bucket
and the total stay non-negative. -/
lemma sectorFold_inv (live : LiveData) (portfolio : List Position)
    (hq : ∀ s ∈ portfolio, 0 ≤ s.quantity)
    (hp : ∀ t data, live t = some data → 0 ≤ data.price) :
    ∀ acc : List (String × ℚ) × ℚ,
      (acc.1.map Prod.snd).sum = acc.2 → (∀ x ∈ acc.1, 0 ≤ x.2) → 0 ≤ acc.2 →
      ((sectorFold live portfolio acc).1.map Prod.snd).sum
          = (sectorFold live portfolio acc).2
        ∧ (∀ x ∈ (sectorFold live portfolio acc).1, 0 ≤ x.2)
        ∧ 0 ≤ (sectorFold live portfolio acc).2 := by
  induction portfolio with
  | nil => exact fun acc h1 h2 h3 => ⟨h1, h2, h3⟩
  | cons stock rest ih =>
    intro acc h1 h2 h3
    have hq' : ∀ s ∈ rest, 0 ≤ s.quantity :=
      fun s hs => hq s (List.mem_cons_of_mem _ hs)
    cases hl : live stock.ticker with
    | none =>
      simp only [sectorFold, hl]
      exact ih hq' acc h1 h2 h3
    | some data =>
      have hv : 0 ≤ stock.quantity * data.price :=
        mul_nonneg (hq stock (List.mem_cons_self _ _)) (hp _ _ hl)
      simp only [sectorFold, hl]
      refine ih hq' _ ?_ ?_ ?_
      · rw [addToSector_sum, h1]
      · exact addToSector_nonneg _ _ _ h2 hv
      · positivity

/-- The percentages are the values rescaled by `100 / t`, so they sum to
the rescaled total. -/
lemma sum_map_share (l : List (String × ℚ)) (t : ℚ) :
    ((l.map (fun p => (p.1, p.2 / t * 100))).map Prod.snd).sum
      = (l.map Prod.snd).sum / t * 100 := by
  induction l with
  | nil => simp
  | cons p rest ih =>
    simp only [List.map_cons, List.sum_cons, ih]
    ring

/-- A list of rationals all exceeding 40 sums to at least 40 times its
length. -/
lemma forty_lt_sum (l : List ℚ) (h : ∀ x ∈ l, 40 < x) :
    40 * l.length ≤ l.sum := by
  induction l with
  | nil => simp
  | cons x rest ih =>
    have hx := h x (List.mem_cons_self _ _)
    have hr := ih (fun y hy => h y (List.mem_cons_of_mem _ hy))
    simp only [List.length_cons, List.sum_cons]
    push_cast
    linarith

/-- Pigeonhole core: when non-negative values sum to a positive total,
at most two of the rescaled shares can exceed 40 percent. -/
lemma filter_share_le_two (l : List (String × ℚ)) (t : ℚ)
    (hsum : (l.map Prod.snd).sum = t) (hnn : ∀ x ∈ l, 0 ≤ x.2) (ht : 0 < t) :
    ((l.map (fun p => (p.1, p.2 / t * 100))).filter (fun p => p.2 > 40)).length ≤ 2 := by
  by_contra hlen
  push_neg at hlen
  have hall40 : ∀ x ∈ ((l.map (fun p => (p.1, p.2 / t * 100))).filter
      (fun p => p.2 > 40)).map Prod.snd, 40 < x := by
    intro x hx
    rcases List.mem_map.mp hx with ⟨p, hpmem, rfl⟩
    exact of_decide_eq_true (List.mem_filter.mp hpmem).2
  have h1 := forty_lt_sum _ hall40
  have hsub : List.Sublist
      ((((l.map (fun p => (p.1, p.2 / t * 100))).filter
        (fun p => p.2 > 40))).map Prod.snd)
      ((l.map (fun p => (p.1, p.2 / t * 100))).map Prod.snd) :=
    (List.filter_sublist _).map Prod.snd
  have hnonneg : ∀ x ∈ (l.map (fun p => (p.1, p.2 / t * 100))).map Prod.snd, 0 ≤ x := by
    intro x hx
    rcases List.mem_map.mp hx with ⟨y, hymem, rfl⟩
    rcases List.mem_map.mp hymem with ⟨p, hpmem, rfl⟩
    have := hnn p hpmem
    positivity
  have h2 := List.Sublist.sum_le_sum hsub hnonneg
  have hsum100 : ((l.map (fun p => (p.1, p.2 / t * 100))).map Prod.snd).sum = 100 := by
    rw [sum_map_share, hsum, div_self (ne_of_gt ht)]
    norm_num
  have hlen3 : (3 : ℚ) ≤ (((l.map (fun p => (p.1, p.2 / t * 100))).filter
      (fun p => p.2 > 40)).map Prod.snd).length := by
    rw [List.length_map]
    exact_mod_cast hlen
  linarith

/-- C10: with non-negative quantities and prices, the diversification
warning names at most two sectors: each named sector holds strictly more
than 40% of the positive total, the sector values are non-negative and
sum to the total, so three such sectors would exceed 120% of it. -/
theorem at_most_two_concentrated (portfolio : List Position) (live : LiveData)
    (hq : ∀ s ∈ portfolio, 0 ≤ s.quantity)
    (hp : ∀ t data, live t = some data → 0 ≤ data.price) :
    (namedSectors (analyse_diversification portfolio live)).length ≤ 2 := by
  obtain ⟨hsum, hnn, hpos⟩ :=
    sectorFold_inv live portfolio hq hp ([], 0) (by simp) (by simp) le_rfl
  by_cases h0 : (sectorTotals portfolio live).2 = 0
  · simp [analyse_diversification, h0, namedSectors]
  · have ht : 0 < (sectorTotals portfolio live).2 := lt_of_le_of_ne hpos (Ne.symm h0)
    simp only [analyse_diversification]
    rw [if_neg h0]
    by_cases hc :
        (((sectorTotals portfolio live).1.map
            (fun p => (p.1, p.2 / (sectorTotals portfolio live).2 * 100))).filter
          (fun p => p.2 > 40)) = []
    · rw [if_pos hc]
      simp [namedSectors]
    · rw [if_neg hc]
      simp only [namedSectors, List.length_map]
      exact filter_share_le_two (sectorTotals portfolio live).1
        (sectorTotals portfolio live).2 hsum hnn ht

/-- Every price `dLive` ever returns is non-negative. -/
lemma dLive_price_nonneg : ∀ t data, dLive t = some data → 0 ≤ data.price := by
  intro t data h
  by_cases ht : t = "A"
  · simp only [dLive, ht, if_pos] at h
    rw [Option.some_inj] at h
    rw [← h]
    norm_num [dSnap]
  · simp [dLive, ht] at h

/-- Witness for C10 at the concrete concentrated portfolio. -/
theorem at_most_two_concentrated_witness :
    (∀ s ∈ [dStock], 0 ≤ s.quantity) ∧
    (∀ t data, dLive t = some data → 0 ≤ data.price) ∧
    (namedSectors (analyse_diversification [dStock] dLive)).length ≤ 2 :=
  ⟨by decide, dLive_price_nonneg,
   at_most_two_concentrated [dStock] dLive (by decide) dLive_price_nonneg⟩

end App
